import Mathlib

/-!
Shallow embedding of `scripts/vehicle_csv_analyzer.py`: the lexicon,
the normaliser, the similarity functions (Jaccard and the difflib
`SequenceMatcher.ratio`-based fuzzy match), the per-row evaluation loop
and the final metric computation, together with theorems settling the
frozen claims about them.

Python floats are modelled as `ℚ` (all quantities involved are exact
ratios of small integers); a Python `ZeroDivisionError` is modelled as
`none` of an `Option ℚ`.
-/

namespace VehicleCsvAnalyzer

/-- `BODY_WORDS` from the script (body-style words, dropped unconditionally). -/
def BODY_WORDS : List String :=
  ["sedan", "coupe", "convertible", "wagon", "hatchback", "suv", "van", "cab",
   "crew", "regular", "extended", "cargo", "minivan", "roadster", "cabriolet",
   "car", "truck"]

/-- `TRIM_WORDS` from the script (trim words, dropped unconditionally). -/
def TRIM_WORDS : List String :=
  ["hybrid", "sport", "gt", "ss", "srt", "rt", "lx", "ex", "v8", "v6", "v12",
   "db9", "zr1", "z06", "xkr", "xk", "touring", "supersports", "super", "gti", "hse",
   "awd", "ff", "xl", "xlt", "lt", "ls", "sv", "rs", "rsx", "type", "series", "class"]

/-- `COLOURS` from the script. -/
def COLOURS : List String :=
  ["black", "white", "silver", "grey", "gray", "blue", "red", "green", "yellow", "gold",
   "orange", "brown", "beige", "maroon", "pink", "purple", "burgundy", "tan", "teal"]

/-- `SYNONYMS` from the script: alias → canonical make name. -/
def SYNONYMS : List (String × String) :=
  [("vw", "volkswagen"),
   ("volkswagon", "volkswagen"),
   ("chevy", "chevrolet"),
   ("mb", "mercedes-benz"),
   ("mercedes", "mercedes-benz"),
   ("merc", "mercedes-benz"),
   ("rr", "rolls-royce"),
   ("land", "land-rover"),
   ("rover", "land-rover")]

/-- `SYNONYMS.get(t, t)`: resolve an alias through the synonym table,
falling back to the token itself. -/
def synResolve (t : String) : String :=
  (SYNONYMS.lookup t).getD t

/-- A character kept by the regex `[^a-z0-9 ]` replacement (after lowercasing):
a lowercase ASCII letter, an ASCII digit, or a space. -/
def keepChar (c : Char) : Bool :=
  (('a' ≤ c && c ≤ 'z') || ('0' ≤ c && c ≤ '9')) || c = ' '

/-- One character of `_tokenise`: lowercase, then replace anything that is not
`[a-z0-9 ]` by a space. -/
def cleanChar (c : Char) : Char :=
  let c := c.toLower
  if keepChar c then c else ' '

/-- Split a character stream on spaces, dropping empty fields (Python
`str.split()`); `acc` holds the characters of the current word, reversed. -/
def splitWords : List Char → List Char → List String
  | [], acc => if acc.isEmpty then [] else [String.mk acc.reverse]
  | c :: cs, acc =>
    if c = ' ' then
      if acc.isEmpty then splitWords cs []
      else String.mk acc.reverse :: splitWords cs []
    else splitWords cs (c :: acc)

/-- `_tokenise(text)`: lowercase, strip punctuation to spaces, split on
whitespace (Python `str.split()` drops empty fields; after `cleanChar` the
only whitespace character left is the space). -/
def _tokenise (text : String) : List String :=
  splitWords (text.data.map cleanChar) []

/-- The year filter of `normalise`: `len(t) == 4 and t.isdigit()`. -/
def isYear (t : String) : Bool :=
  t.length = 4 && t.data.all Char.isDigit

/-- The token scan of `normalise` (lines 60–68 of the script): capture the
first colour word while no colour has been captured, drop every body-style or
trim word, keep everything else in order. -/
def scanTokens : List String → Option String → Option String × List String
  | [], colour => (colour, [])
  | t :: ts, colour =>
    if COLOURS.contains t && colour.isNone then
      scanTokens ts (some t)
    else if BODY_WORDS.contains t || TRIM_WORDS.contains t then
      scanTokens ts colour
    else
      let r := scanTokens ts colour
      (r.1, t :: r.2)

/-- The result of a successful `normalise`: the triple
`(make, model_tokens, colour)`. -/
structure Normd where
  make : String
  modelTokens : List String
  colour : Option String
deriving DecidableEq, Repr

/-- `normalise(text)`: tokenise, drop 4-digit years, capture the first colour,
drop body/trim words; `none` when no token survives, otherwise the first
surviving token (synonym-resolved) is the make and the rest are model tokens. -/
def normalise (text : String) : Option Normd :=
  let tokens := (_tokenise text).filter (fun t => ! isYear t)
  let r := scanTokens tokens none
  match r.2 with
  | [] => none
  | m :: rest => some ⟨synResolve m, rest, r.1⟩

/-- `jaccard(a, b)`: 0 when either list is empty, otherwise
`len(set(a) & set(b)) / len(set(a) | set(b))`. -/
def jaccard (a b : List String) : ℚ :=
  if a.isEmpty || b.isEmpty then 0
  else ((a.toFinset ∩ b.toFinset).card : ℚ) / ((a.toFinset ∪ b.toFinset).card : ℚ)

/-!
Model of `difflib.SequenceMatcher(None, ·, ·).ratio()` for the strings this
script compares. With no explicit junk and strings far below the 200-character
autojunk threshold, the junk machinery is inert, and the two block-extension
loops of `find_longest_match` never fire (the main loop already records every
run at its maximal length inside the window), so they are omitted here.
-/

/-- The positions `j` of `b` with `blo ≤ j < bhi` and `b[j] = c`, in increasing
order: difflib walks `b2j[c]`, skipping `j < blo` and stopping at `j ≥ bhi`. -/
def matchPositions (b : List Char) (c : Char) (blo bhi : Nat) : List Nat :=
  (List.range b.length).filter (fun j => blo ≤ j && j < bhi && b.getD j ' ' = c)

/-- Inner loop of `find_longest_match` at row `i`: `j2len` maps `j` to the
length of the matching run ending at `(i-1, j)`; threads the new map and the
best block `(besti, bestj, bestsize)`. -/
def flmInner (j2len : List (Nat × Nat)) (i : Nat) :
    List Nat → List (Nat × Nat) → Nat × Nat × Nat → List (Nat × Nat) × (Nat × Nat × Nat)
  | [], newj2len, best => (newj2len, best)
  | j :: js, newj2len, best =>
    let k := (if j = 0 then 0 else (j2len.lookup (j - 1)).getD 0) + 1
    let best' := if best.2.2 < k then (i + 1 - k, j + 1 - k, k) else best
    flmInner j2len i js ((j, k) :: newj2len) best'

/-- Outer loop of `find_longest_match` over the rows `i` of the window. -/
def flmOuter (a b : List Char) (blo bhi : Nat) :
    List Nat → List (Nat × Nat) → Nat × Nat × Nat → Nat × Nat × Nat
  | [], _, best => best
  | i :: rest, j2len, best =>
    let p := flmInner j2len i (matchPositions b (a.getD i ' ') blo bhi) [] best
    flmOuter a b blo bhi rest p.1 p.2

/-- `find_longest_match(alo, ahi, blo, bhi)` (junk-free case). -/
def find_longest_match (a b : List Char) (alo ahi blo bhi : Nat) : Nat × Nat × Nat :=
  flmOuter a b blo bhi ((List.range ahi).drop alo) [] (alo, blo, 0)

/-- `get_matching_blocks` recursion: the longest block of the window splits it
in two; `fuel` only bounds the recursion depth (the windows shrink strictly). -/
def matchingBlocks (a b : List Char) : Nat → Nat → Nat → Nat → Nat → List (Nat × Nat × Nat)
  | 0, _, _, _, _ => []
  | fuel + 1, alo, ahi, blo, bhi =>
    let m := find_longest_match a b alo ahi blo bhi
    if 0 < m.2.2 then
      matchingBlocks a b fuel alo m.1 blo m.2.1 ++
        m :: matchingBlocks a b fuel (m.1 + m.2.2) ahi (m.2.1 + m.2.2) bhi
    else []

/-- Total number of matched characters: the sum of the matching-block sizes
(difflib's sorting, merging of adjacent blocks and terminal zero-size block do
not change this sum). -/
def sm_matches (a b : List Char) : Nat :=
  ((matchingBlocks a b (a.length + b.length + 1) 0 a.length 0 b.length).map
    (fun m => m.2.2)).sum

/-- `SequenceMatcher.ratio()`: `2·M / T` with `T` the total length, `1.0` when
both strings are empty. -/
def sm_ratio (a b : List Char) : ℚ :=
  if a.length + b.length = 0 then 1
  else 2 * (sm_matches a b : ℚ) / ((a.length : ℚ) + (b.length : ℚ))

/-- Python `" ".join(tokens)`. -/
def joinSpace : List String → String
  | [] => ""
  | [t] => t
  | t :: ts => t ++ " " ++ joinSpace ts

/-- `fuzzy_match(a, b, threshold)`: false when either token list is empty,
otherwise compare the difflib ratio of the space-joined strings against the
threshold (the script always uses the default `threshold = 0.8`). -/
def fuzzy_match (a b : List String) (threshold : ℚ) : Bool :=
  if a.isEmpty || b.isEmpty then false
  else decide (threshold ≤ sm_ratio (joinSpace a).data (joinSpace b).data)

/-- Five characters of "civic" match themselves: the one maximal block. -/
theorem sm_matches_civic : sm_matches "civic".data "civic".data = 5 := by decide

/-- The difflib ratio of identical 5-character strings is 1. -/
theorem sm_ratio_civic : sm_ratio "civic".data "civic".data = 1 := by
  have h : sm_matches "civic".data "civic".data = 5 := by decide
  have hl : ("civic".data).length = 5 := rfl
  simp only [sm_ratio, h, hl]
  norm_num

/-- Identical singleton model-token lists pass the 0.8 fuzzy threshold. -/
theorem fuzzy_match_civic : fuzzy_match ["civic"] ["civic"] (8 / 10) = true := by
  have h : sm_matches "civic".data "civic".data = 5 := by decide
  have hj : joinSpace ["civic"] = "civic" := rfl
  have hl : ("civic".data).length = 5 := rfl
  simp only [fuzzy_match, hj, List.isEmpty, Bool.or_self, Bool.false_or,
    if_false, sm_ratio, h, hl, Bool.ite_eq_true_distrib, decide_eq_true_eq]
  norm_num

/-- Identical singleton model-token lists have Jaccard similarity 1. -/
theorem jaccard_civic : jaccard ["civic"] ["civic"] = 1 := by
  have h1 : ((["civic"] : List String).toFinset ∩ ["civic"].toFinset).card = 1 := rfl
  have h2 : ((["civic"] : List String).toFinset ∪ ["civic"].toFinset).card = 1 := rfl
  simp [jaccard, h1, h2]

/-! ### The analysis loop (`analyse`, lines 88–169 of the script) -/

/-- One CSV row after the boolean parsing of lines 111–112
(`row.get("expected", "").lower() == 'true'`, same for `is_match`). -/
structure Record where
  ground_truth : String
  predicted : String
  expected : Bool
  is_match : Bool
deriving DecidableEq, Repr

/-- The accumulator variables of `analyse`'s loop (lines 89–101). -/
structure Counters where
  total : Nat
  true_pos : Nat
  false_pos : Nat
  true_neg : Nat
  false_neg : Nat
  make_match : Nat
  model_match : Nat
  both_match : Nat
  colour_match : Nat
  substring_match : Nat
  j_scores : List ℚ
deriving Repr

/-- All counters start at zero, `j_scores` empty. -/
def initCounters : Counters := ⟨0, 0, 0, 0, 0, 0, 0, 0, 0, 0, []⟩

/-- `make_ok = gt[0] == pred[0]` (line 127). -/
def make_ok (gt pred : Normd) : Bool := gt.make == pred.make

/-- `model_ok = fuzzy_match(gt[1], pred[1])` with the default threshold 0.8
(line 128). -/
def model_ok (gt pred : Normd) : Bool :=
  fuzzy_match gt.modelTokens pred.modelTokens (8 / 10)

/-- `gt[2] and pred[2] and gt[2] == pred[2]` (line 136): both colours must be
present and equal. -/
def colour_ok (gt pred : Normd) : Bool :=
  match gt.colour, pred.colour with
  | some c1, some c2 => c1 == c2
  | _, _ => false

/-- Python `needle in hay` on strings: substring containment. -/
def isSubstring (needle hay : List Char) : Bool :=
  (List.range (hay.length + 1)).any (fun i => needle.isPrefixOf (hay.drop i))

/-- Python `str.lower()`. -/
def lowerStr (s : String) : String := String.mk (s.data.map Char.toLower)

/-- The substring heuristic of lines 142–144: the resolved ground-truth make
and the first two predicted model tokens all occur in the lowercased raw
ground-truth text. -/
def substring_ok (raw_gt : String) (gt pred : Normd) : Bool :=
  let raw := (lowerStr raw_gt).data
  isSubstring gt.make.data raw &&
    (pred.modelTokens.take 2).all (fun tok => isSubstring tok.data raw)

/-- One iteration of the loop (lines 105–144): bump `total`, classify the row
into the confusion matrix from the two booleans, then — only when both texts
normalise — update the field-match counters and the Jaccard list. -/
def step (c : Counters) (r : Record) : Counters :=
  let c := { c with total := c.total + 1 }
  let gt := normalise r.ground_truth
  let pred := normalise r.predicted
  let c :=
    if r.expected && r.is_match then { c with true_pos := c.true_pos + 1 }
    else if !r.expected && !r.is_match then { c with true_neg := c.true_neg + 1 }
    else if r.expected && !r.is_match then { c with false_neg := c.false_neg + 1 }
    else if !r.expected && r.is_match then { c with false_pos := c.false_pos + 1 }
    else c
  match gt, pred with
  | some g, some p =>
    let c := if make_ok g p then { c with make_match := c.make_match + 1 } else c
    let c := if model_ok g p then { c with model_match := c.model_match + 1 } else c
    let c := if make_ok g p && model_ok g p then
      { c with both_match := c.both_match + 1 } else c
    let c := if colour_ok g p then { c with colour_match := c.colour_match + 1 } else c
    let c := { c with j_scores := c.j_scores ++ [jaccard g.modelTokens p.modelTokens] }
    if substring_ok r.ground_truth g p then
      { c with substring_match := c.substring_match + 1 } else c
  | _, _ => c

/-- The whole loop over a batch of rows. -/
def runBatch (rs : List Record) : Counters := List.foldl step initCounters rs

/-- Python `n / d` on the counter ints, as written UNGUARDED on lines 164–167;
`none` models the `ZeroDivisionError` raised when `d = 0`. -/
def pyDiv (n d : Nat) : Option ℚ :=
  if d = 0 then none else some ((n : ℚ) / (d : ℚ))

/-- The quantities printed by lines 146–169. For the four `pyDiv` fields,
`none` means the run crashed with `ZeroDivisionError`; for `mean_jaccard` and
`substring_rate`, `none` models the guarded "No valid Jaccard scores" /
"No data" message. -/
structure Report where
  precision : ℚ
  «recall» : ℚ
  f1 : ℚ
  accuracy : ℚ
  make_acc : Option ℚ
  model_acc : Option ℚ
  both_acc : Option ℚ
  colour_acc : Option ℚ
  mean_jaccard : Option ℚ
  substring_rate : Option ℚ
deriving Repr

/-- Lines 146–150 and 164–169 of the script: the guarded confusion metrics,
the four unguarded per-field rates, the guarded mean Jaccard and substring
rate. -/
def mkReport (c : Counters) : Report :=
  let precision : ℚ :=
    if c.true_pos + c.false_pos > 0 then
      (c.true_pos : ℚ) / ((c.true_pos : ℚ) + (c.false_pos : ℚ)) else 0
  let «recall» : ℚ :=
    if c.true_pos + c.false_neg > 0 then
      (c.true_pos : ℚ) / ((c.true_pos : ℚ) + (c.false_neg : ℚ)) else 0
  let f1 : ℚ :=
    if precision + «recall» > 0 then
      2 * (precision * «recall») / (precision + «recall») else 0
  let accuracy : ℚ :=
    if c.total > 0 then ((c.true_pos : ℚ) + (c.true_neg : ℚ)) / (c.total : ℚ) else 0
  { precision := precision, «recall» := «recall», f1 := f1, accuracy := accuracy,
    make_acc := pyDiv c.make_match c.total,
    model_acc := pyDiv c.model_match c.total,
    both_acc := pyDiv c.both_match c.total,
    colour_acc := pyDiv c.colour_match c.total,
    mean_jaccard :=
      if c.j_scores.isEmpty then none
      else some (c.j_scores.sum / (c.j_scores.length : ℚ)),
    substring_rate :=
      if c.total > 0 then some ((c.substring_match : ℚ) / (c.total : ℚ)) else none }

/-- `analyse` on an in-memory batch: run the loop, then compute the metrics. -/
def analyse (rs : List Record) : Report := mkReport (runBatch rs)

/-! ### Label counting: the confusion matrix as a function of the two
boolean labels alone -/

/-- The two boolean labels of a row, the only data the confusion
classification may read. -/
def labels (r : Record) : Bool × Bool := (r.expected, r.is_match)

/-- Number of rows whose labels are exactly `(e, m)`. -/
def countLabels (e m : Bool) : List Record → Nat
  | [] => 0
  | r :: rs => (if r.expected = e ∧ r.is_match = m then 1 else 0) + countLabels e m rs

theorem step_total (c : Counters) (r : Record) : (step c r).total = c.total + 1 := by
  unfold step
  cases hg : normalise r.ground_truth <;> cases hp : normalise r.predicted <;>
    cases he : r.expected <;> cases hm : r.is_match <;>
      simp [apply_ite Counters.total]

theorem step_true_pos (c : Counters) (r : Record) :
    (step c r).true_pos =
      c.true_pos + (if r.expected = true ∧ r.is_match = true then 1 else 0) := by
  unfold step
  cases hg : normalise r.ground_truth <;> cases hp : normalise r.predicted <;>
    cases he : r.expected <;> cases hm : r.is_match <;>
      simp [apply_ite Counters.true_pos]

theorem step_true_neg (c : Counters) (r : Record) :
    (step c r).true_neg =
      c.true_neg + (if r.expected = false ∧ r.is_match = false then 1 else 0) := by
  unfold step
  cases hg : normalise r.ground_truth <;> cases hp : normalise r.predicted <;>
    cases he : r.expected <;> cases hm : r.is_match <;>
      simp [apply_ite Counters.true_neg]

theorem step_false_neg (c : Counters) (r : Record) :
    (step c r).false_neg =
      c.false_neg + (if r.expected = true ∧ r.is_match = false then 1 else 0) := by
  unfold step
  cases hg : normalise r.ground_truth <;> cases hp : normalise r.predicted <;>
    cases he : r.expected <;> cases hm : r.is_match <;>
      simp [apply_ite Counters.false_neg]

theorem step_false_pos (c : Counters) (r : Record) :
    (step c r).false_pos =
      c.false_pos + (if r.expected = false ∧ r.is_match = true then 1 else 0) := by
  unfold step
  cases hg : normalise r.ground_truth <;> cases hp : normalise r.predicted <;>
    cases he : r.expected <;> cases hm : r.is_match <;>
      simp [apply_ite Counters.false_pos]

theorem foldl_total (rs : List Record) :
    ∀ c : Counters, (List.foldl step c rs).total = c.total + rs.length := by
  induction rs with
  | nil => intro c; simp
  | cons r rs ih =>
    intro c
    simp only [List.foldl_cons, ih, step_total, List.length_cons]
    omega

theorem foldl_true_pos (rs : List Record) :
    ∀ c : Counters,
      (List.foldl step c rs).true_pos = c.true_pos + countLabels true true rs := by
  induction rs with
  | nil => intro c; simp [countLabels]
  | cons r rs ih =>
    intro c
    simp only [List.foldl_cons, ih, step_true_pos, countLabels]
    omega

theorem foldl_true_neg (rs : List Record) :
    ∀ c : Counters,
      (List.foldl step c rs).true_neg = c.true_neg + countLabels false false rs := by
  induction rs with
  | nil => intro c; simp [countLabels]
  | cons r rs ih =>
    intro c
    simp only [List.foldl_cons, ih, step_true_neg, countLabels]
    omega

theorem foldl_false_neg (rs : List Record) :
    ∀ c : Counters,
      (List.foldl step c rs).false_neg = c.false_neg + countLabels true false rs := by
  induction rs with
  | nil => intro c; simp [countLabels]
  | cons r rs ih =>
    intro c
    simp only [List.foldl_cons, ih, step_false_neg, countLabels]
    omega

theorem foldl_false_pos (rs : List Record) :
    ∀ c : Counters,
      (List.foldl step c rs).false_pos = c.false_pos + countLabels false true rs := by
  induction rs with
  | nil => intro c; simp [countLabels]
  | cons r rs ih =>
    intro c
    simp only [List.foldl_cons, ih, step_false_pos, countLabels]
    omega

theorem runBatch_total (rs : List Record) : (runBatch rs).total = rs.length := by
  simpa [runBatch, initCounters] using foldl_total rs initCounters

theorem runBatch_true_pos (rs : List Record) :
    (runBatch rs).true_pos = countLabels true true rs := by
  simpa [runBatch, initCounters] using foldl_true_pos rs initCounters

theorem runBatch_true_neg (rs : List Record) :
    (runBatch rs).true_neg = countLabels false false rs := by
  simpa [runBatch, initCounters] using foldl_true_neg rs initCounters

theorem runBatch_false_neg (rs : List Record) :
    (runBatch rs).false_neg = countLabels true false rs := by
  simpa [runBatch, initCounters] using foldl_false_neg rs initCounters

theorem runBatch_false_pos (rs : List Record) :
    (runBatch rs).false_pos = countLabels false true rs := by
  simpa [runBatch, initCounters] using foldl_false_pos rs initCounters

/-- The four boolean label cases are exhaustive and mutually exclusive. -/
theorem countLabels_partition (rs : List Record) :
    countLabels true true rs + countLabels false true rs +
      countLabels false false rs + countLabels true false rs = rs.length := by
  induction rs with
  | nil => rfl
  | cons r rs ih =>
    simp only [countLabels, List.length_cons]
    cases he : r.expected <;> cases hm : r.is_match <;> simp <;> omega

/-! ### Characterising the token scan (for claim C6) -/

/-- The first colour-set token of a stream, if any (spec-side description of
the scan's colour capture). -/
def firstColour (ts : List String) : Option String :=
  ts.find? (fun t => COLOURS.contains t)

/-- Remove only the first colour-set token of a stream, keeping every later
occurrence (spec-side description). -/
def dropFirstColour : List String → List String
  | [] => []
  | t :: ts => if COLOURS.contains t then ts else t :: dropFirstColour ts

/-- Once a colour is captured, the scan only filters body/trim words. -/
theorem scanTokens_some (c : String) :
    ∀ ts : List String,
      scanTokens ts (some c) =
        (some c,
          ts.filter (fun t => !(BODY_WORDS.contains t || TRIM_WORDS.contains t))) := by
  intro ts
  induction ts with
  | nil => rfl
  | cons t ts ih =>
    by_cases hbt : t ∈ BODY_WORDS ∨ t ∈ TRIM_WORDS
    · have hno : ¬ (t ∉ BODY_WORDS ∧ t ∉ TRIM_WORDS) := by tauto
      simp [scanTokens, hbt, hno, ih, List.filter_cons]
    · obtain ⟨h1, h2⟩ := not_or.mp hbt
      simp [scanTokens, hbt, h1, h2, ih, List.filter_cons]

/-- The full scan: capture the first colour token (and only that occurrence),
drop every body/trim token, keep the rest in order. -/
theorem scanTokens_none :
    ∀ ts : List String,
      scanTokens ts none =
        (firstColour ts,
          (dropFirstColour ts).filter
            (fun t => !(BODY_WORDS.contains t || TRIM_WORDS.contains t))) := by
  intro ts
  induction ts with
  | nil => rfl
  | cons t ts ih =>
    by_cases hc : t ∈ COLOURS
    · simp [scanTokens, hc, scanTokens_some, firstColour, dropFirstColour, List.find?]
    · by_cases hbt : t ∈ BODY_WORDS ∨ t ∈ TRIM_WORDS
      · have hno : ¬ (t ∉ BODY_WORDS ∧ t ∉ TRIM_WORDS) := by tauto
        simp [scanTokens, hc, hbt, hno, ih, firstColour, dropFirstColour,
          List.find?, List.filter_cons]
      · obtain ⟨h1, h2⟩ := not_or.mp hbt
        simp [scanTokens, hc, hbt, h1, h2, ih, firstColour, dropFirstColour,
          List.find?, List.filter_cons]

/-- `countLabels` reads nothing of a row but its two boolean labels. -/
theorem countLabels_congr (e m : Bool) :
    ∀ rs₁ rs₂ : List Record, rs₁.map labels = rs₂.map labels →
      countLabels e m rs₁ = countLabels e m rs₂ := by
  intro rs₁
  induction rs₁ with
  | nil =>
    intro rs₂ h
    cases rs₂ with
    | nil => rfl
    | cons r₂ t₂ => simp at h
  | cons r t ih =>
    intro rs₂ h
    cases rs₂ with
    | nil => simp at h
    | cons r₂ t₂ =>
      simp only [List.map_cons, List.cons.injEq, labels, Prod.mk.injEq] at h
      obtain ⟨⟨h1, h2⟩, h3⟩ := h
      simp [countLabels, h1, h2, ih t₂ h3]

/-! ### Projections of the final report -/

theorem analyse_precision (rs : List Record) :
    (analyse rs).precision =
      (if (runBatch rs).true_pos + (runBatch rs).false_pos > 0 then
        ((runBatch rs).true_pos : ℚ) /
          (((runBatch rs).true_pos : ℚ) + ((runBatch rs).false_pos : ℚ))
      else 0) := rfl

theorem analyse_recall (rs : List Record) :
    (analyse rs).«recall» =
      (if (runBatch rs).true_pos + (runBatch rs).false_neg > 0 then
        ((runBatch rs).true_pos : ℚ) /
          (((runBatch rs).true_pos : ℚ) + ((runBatch rs).false_neg : ℚ))
      else 0) := rfl

theorem analyse_accuracy (rs : List Record) :
    (analyse rs).accuracy =
      (if (runBatch rs).total > 0 then
        (((runBatch rs).true_pos : ℚ) + ((runBatch rs).true_neg : ℚ)) /
          ((runBatch rs).total : ℚ)
      else 0) := rfl

theorem analyse_f1 (rs : List Record) :
    (analyse rs).f1 =
      (if (analyse rs).precision + (analyse rs).«recall» > 0 then
        2 * ((analyse rs).precision * (analyse rs).«recall») /
          ((analyse rs).precision + (analyse rs).«recall»)
      else 0) := rfl

theorem analyse_precision_nonneg (rs : List Record) : 0 ≤ (analyse rs).precision := by
  rw [analyse_precision]
  split
  · positivity
  · exact le_rfl

theorem analyse_recall_nonneg (rs : List Record) : 0 ≤ (analyse rs).«recall» := by
  rw [analyse_recall]
  split
  · positivity
  · exact le_rfl

/-! ### The claims -/

/-- Claim C1 (code bug): on a batch of zero records, the four per-field rate
computations of lines 164–167 divide by `total = 0`, i.e. the script raises
`ZeroDivisionError` (modelled as `none`) instead of reporting "no data";
meanwhile accuracy, precision, recall and F1 are guarded and report the
number 0, not a "no data" condition. Only the mean Jaccard and the substring
rate degrade to their guarded "no data" messages. -/
theorem C1_empty_batch_rates :
    (analyse []).make_acc = none ∧
    (analyse []).model_acc = none ∧
    (analyse []).both_acc = none ∧
    (analyse []).colour_acc = none ∧
    (analyse []).accuracy = 0 ∧
    (analyse []).precision = 0 ∧
    (analyse []).«recall» = 0 ∧
    (analyse []).f1 = 0 ∧
    (analyse []).mean_jaccard = none ∧
    (analyse []).substring_rate = none := by
  refine ⟨rfl, rfl, rfl, rfl, ?_, ?_, ?_, ?_, rfl, rfl⟩ <;>
    simp [analyse, runBatch, mkReport, initCounters, pyDiv]

/-- Claim C2 counterexample: the claimed value of
`normalise "2012 Toyota Camry LE Silver"` is wrong — the token "le" is not in
`TRIM_WORDS`, so `modelTokens` is not `["camry"]`. -/
theorem C2_counterexample :
    ¬ normalise "2012 Toyota Camry LE Silver" =
        some ⟨"toyota", ["camry"], some "silver"⟩ := by decide

/-- Claim C2 (amended): `normalise "2012 Toyota Camry LE Silver"` strips the
year token "2012" and captures the colour "silver", but the trim-like token
"le" is absent from `TRIM_WORDS` and survives: the result is make "toyota",
modelTokens ["camry", "le"], colour "silver". -/
theorem C2_camry_result :
    normalise "2012 Toyota Camry LE Silver" =
      some ⟨"toyota", ["camry", "le"], some "silver"⟩ := by decide

/-- Claim C3 counterexample: it is not the case that both sides normalise to
make "rolls-royce" — tokenisation splits "Rolls-Royce" at the hyphen, and
"rolls" has no entry in `SYNONYMS`. -/
theorem C3_counterexample :
    ¬ ((normalise "Rolls-Royce Phantom").map Normd.make = some "rolls-royce" ∧
       (normalise "RR Phantom").map Normd.make = some "rolls-royce") := by decide

/-- Claim C3 (amended): the predicted text "RR Phantom" resolves to make
"rolls-royce" through the synonym table, but the ground truth
"Rolls-Royce Phantom" yields make "rolls", so the makes differ and
`make_ok` is false. -/
theorem C3_rolls_royce :
    normalise "Rolls-Royce Phantom" = some ⟨"rolls", ["royce", "phantom"], none⟩ ∧
    normalise "RR Phantom" = some ⟨"rolls-royce", ["phantom"], none⟩ ∧
    make_ok ⟨"rolls", ["royce", "phantom"], none⟩
      ⟨"rolls-royce", ["phantom"], none⟩ = false := by decide

/-- Claim C4: the confusion counters are exactly the per-label-pair counts —
`(true, true) ↦ TP`, `(false, false) ↦ TN`, `(true, false) ↦ FN`,
`(false, true) ↦ FP` — and they depend only on the boolean labels of the
rows: two batches whose rows carry the same labels produce identical
confusion counters, whatever their text fields do under normalisation. -/
theorem C4_confusion_from_labels (rs : List Record) :
    ((runBatch rs).true_pos = countLabels true true rs ∧
     (runBatch rs).true_neg = countLabels false false rs ∧
     (runBatch rs).false_neg = countLabels true false rs ∧
     (runBatch rs).false_pos = countLabels false true rs) ∧
    ∀ rs₂ : List Record, rs.map labels = rs₂.map labels →
      (runBatch rs).true_pos = (runBatch rs₂).true_pos ∧
      (runBatch rs).true_neg = (runBatch rs₂).true_neg ∧
      (runBatch rs).false_neg = (runBatch rs₂).false_neg ∧
      (runBatch rs).false_pos = (runBatch rs₂).false_pos := by
  refine ⟨⟨runBatch_true_pos rs, runBatch_true_neg rs,
    runBatch_false_neg rs, runBatch_false_pos rs⟩, ?_⟩
  intro rs₂ h
  refine ⟨?_, ?_, ?_, ?_⟩ <;>
    simp [runBatch_true_pos, runBatch_true_neg, runBatch_false_neg,
      runBatch_false_pos, countLabels_congr _ _ rs rs₂ h]

/-- Claim C4 witness: a row whose texts fail normalisation ("red" becomes the
captured colour, leaving nothing; "" has no tokens) classifies exactly like a
row with parseable texts and the same labels. -/
theorem C4_confusion_witness :
    (runBatch [⟨"red", "", true, true⟩]).true_pos =
      (runBatch [⟨"2015 Honda Civic Blue", "Honda Civic", true, true⟩]).true_pos :=
  ((C4_confusion_from_labels [⟨"red", "", true, true⟩]).2
    [⟨"2015 Honda Civic Blue", "Honda Civic", true, true⟩] rfl).1

/-- Claim C5 counterexample: "red" tokenises to the single token "red", yet
`normalise` returns `none` — the token is captured as the colour and no token
survives to become the make. -/
theorem C5_counterexample :
    _tokenise "red" = ["red"] ∧ normalise "red" = none := by decide

/-- Claim C5 (amended): on an input with exactly one token, `normalise`
returns that token (synonym-resolved) as the make with an empty model-token
list — unless the token is a four-digit year, a colour, a body-style or a
trim word, in which case it is filtered out and `normalise` returns `none`. -/
theorem C5_single_token (s t : String) (h : _tokenise s = [t]) :
    normalise s =
      (if isYear t || COLOURS.contains t ||
          BODY_WORDS.contains t || TRIM_WORDS.contains t
       then none else some ⟨synResolve t, [], none⟩) := by
  unfold normalise
  rw [h]
  by_cases hy : isYear t = true
  · simp [hy, scanTokens, List.filter_cons]
  · by_cases hc : t ∈ COLOURS
    · simp [hy, hc, scanTokens, List.filter_cons]
    · by_cases hbt : t ∈ BODY_WORDS ∨ t ∈ TRIM_WORDS
      · rcases hbt with hb | ht
        · simp [hy, hc, hb, scanTokens, List.filter_cons]
        · simp [hy, hc, ht, scanTokens, List.filter_cons]
      · obtain ⟨hb, ht⟩ := not_or.mp hbt
        simp [hy, hc, hb, ht, scanTokens, List.filter_cons]

/-- Claim C5 witness: the single-token input "honda" survives every filter
and becomes the make with no model tokens. -/
theorem C5_single_token_witness : normalise "honda" = some ⟨"honda", [], none⟩ := by
  have h := C5_single_token "honda" "honda" (by decide)
  rw [h]
  decide

/-- Claim C6: with no colour captured yet, the scan returns the FIRST
colour-set token as the colour and removes only that occurrence, while every
body-style/trim occurrence is dropped; a later colour word survives as an
ordinary token — in "toyota red blue", "red" is the colour and "blue" lands
in the model tokens — and a repeated body word is dropped both times. -/
theorem C6_first_colour_scan :
    (∀ ts : List String,
      scanTokens ts none =
        (firstColour ts,
          (dropFirstColour ts).filter
            (fun t => !(BODY_WORDS.contains t || TRIM_WORDS.contains t)))) ∧
    normalise "toyota red blue" = some ⟨"toyota", ["blue"], some "red"⟩ ∧
    normalise "toyota sedan camry sedan" = some ⟨"toyota", ["camry"], none⟩ :=
  ⟨scanTokens_none, by decide, by decide⟩

/-- Claim C7: `jaccard` is symmetric, equals 1 on any non-empty list paired
with itself, and equals 0 whenever either argument is empty. -/
theorem C7_jaccard_algebra :
    (∀ a b : List String, jaccard a b = jaccard b a) ∧
    (∀ a : List String, a ≠ [] → jaccard a a = 1) ∧
    (∀ x : List String, jaccard [] x = 0 ∧ jaccard x [] = 0) := by
  refine ⟨?_, ?_, ?_⟩
  · intro a b
    unfold jaccard
    rw [Bool.or_comm, Finset.inter_comm, Finset.union_comm]
  · intro a ha
    obtain ⟨x, xs, rfl⟩ : ∃ y ys, a = y :: ys := by
      cases a with
      | nil => exact absurd rfl ha
      | cons y ys => exact ⟨y, ys, rfl⟩
    have hcard : ((x :: xs).toFinset.card : ℚ) ≠ 0 := by
      have hpos : 0 < (x :: xs).toFinset.card :=
        Finset.card_pos.mpr ⟨x, by simp⟩
      exact_mod_cast hpos.ne'
    simp [jaccard, Finset.inter_self, Finset.union_self, div_self hcard]
  · intro x
    constructor <;> simp [jaccard]

/-- Claim C7 witness: symmetry, the self-similarity identity and the
empty-list convention, each at a concrete list. -/
theorem C7_jaccard_witness :
    jaccard ["a"] ["b"] = jaccard ["b"] ["a"] ∧
    jaccard ["a"] ["a"] = 1 ∧
    jaccard [] ["a"] = 0 :=
  ⟨C7_jaccard_algebra.1 ["a"] ["b"],
   C7_jaccard_algebra.2.1 ["a"] (by decide),
   (C7_jaccard_algebra.2.2 ["a"]).1⟩

/-- Claim C8: for ground truth "2015 Honda Civic Blue" and predicted
"Honda Civic", the makes match, the colour does not (the predicted side
captures no colour and absent-vs-present is not a match), the model
fuzzy-match passes on the identical token lists, and the Jaccard score is 1. -/
theorem C8_honda_civic :
    normalise "2015 Honda Civic Blue" = some ⟨"honda", ["civic"], some "blue"⟩ ∧
    normalise "Honda Civic" = some ⟨"honda", ["civic"], none⟩ ∧
    make_ok ⟨"honda", ["civic"], some "blue"⟩ ⟨"honda", ["civic"], none⟩ = true ∧
    colour_ok ⟨"honda", ["civic"], some "blue"⟩ ⟨"honda", ["civic"], none⟩ = false ∧
    model_ok ⟨"honda", ["civic"], some "blue"⟩ ⟨"honda", ["civic"], none⟩ = true ∧
    jaccard ["civic"] ["civic"] = 1 :=
  ⟨by decide, by decide, by decide, by decide, fuzzy_match_civic, jaccard_civic⟩

/-- Claim C9: for a non-empty batch the reported confusion metrics satisfy
`accuracy = (TP+TN)/total`, `precision = TP/(TP+FP)` (0 when `TP+FP = 0`),
`recall = TP/(TP+FN)` (0 when `TP+FN = 0`) and
`F1 = 2·precision·recall/(precision+recall)` (0 when the denominator is 0),
where the counts are the label counts over ALL rows — rows whose field
comparisons were skipped included, since `countLabels` never reads a text
field. -/
theorem C9_aggregate_metrics (rs : List Record) (h : rs ≠ []) :
    (analyse rs).accuracy =
      ((countLabels true true rs + countLabels false false rs : ℕ) : ℚ) /
        (rs.length : ℚ) ∧
    (analyse rs).precision =
      (if countLabels true true rs + countLabels false true rs = 0 then 0
       else (countLabels true true rs : ℚ) /
         ((countLabels true true rs + countLabels false true rs : ℕ) : ℚ)) ∧
    (analyse rs).«recall» =
      (if countLabels true true rs + countLabels true false rs = 0 then 0
       else (countLabels true true rs : ℚ) /
         ((countLabels true true rs + countLabels true false rs : ℕ) : ℚ)) ∧
    (analyse rs).f1 =
      (if (analyse rs).precision + (analyse rs).«recall» = 0 then 0
       else 2 * ((analyse rs).precision * (analyse rs).«recall») /
         ((analyse rs).precision + (analyse rs).«recall»)) := by
  have hlen : 0 < rs.length := List.length_pos.mpr h
  refine ⟨?_, ?_, ?_, ?_⟩
  · rw [analyse_accuracy, runBatch_true_pos, runBatch_true_neg, runBatch_total,
      if_pos hlen]
    push_cast
    ring
  · rw [analyse_precision, runBatch_true_pos, runBatch_false_pos]
    rcases Nat.eq_zero_or_pos (countLabels true true rs + countLabels false true rs)
      with hz | hp
    · obtain ⟨h1, h2⟩ := Nat.add_eq_zero.mp hz
      simp [h1, h2]
    · rw [if_pos hp, if_neg hp.ne']
      push_cast
      ring
  · rw [analyse_recall, runBatch_true_pos, runBatch_false_neg]
    rcases Nat.eq_zero_or_pos (countLabels true true rs + countLabels true false rs)
      with hz | hp
    · obtain ⟨h1, h2⟩ := Nat.add_eq_zero.mp hz
      simp [h1, h2]
    · rw [if_pos hp, if_neg hp.ne']
      push_cast
      ring
  · rw [analyse_f1]
    rcases eq_or_lt_of_le
        (add_nonneg (analyse_precision_nonneg rs) (analyse_recall_nonneg rs))
      with heq | hlt
    · rw [if_neg (by rw [← heq]; exact lt_irrefl 0), if_pos heq.symm]
    · rw [if_pos hlt, if_neg (ne_of_gt hlt)]

/-- Claim C9 witness: the four formulas at the one-row batch whose single
record is a true positive. -/
theorem C9_aggregate_metrics_witness :
    (analyse [⟨"honda", "honda", true, true⟩]).accuracy =
      ((countLabels true true [⟨"honda", "honda", true, true⟩] +
        countLabels false false [⟨"honda", "honda", true, true⟩] : ℕ) : ℚ) /
        (([⟨"honda", "honda", true, true⟩] : List Record).length : ℚ) :=
  (C9_aggregate_metrics [⟨"honda", "honda", true, true⟩]
    (List.cons_ne_nil _ _)).1

/-- Claim C10: the four confusion counters partition the batch — their sum is
the number of records read, which is also the loop's `total` counter. -/
theorem C10_counters_partition (rs : List Record) :
    (runBatch rs).true_pos + (runBatch rs).false_pos +
      (runBatch rs).true_neg + (runBatch rs).false_neg = rs.length ∧
    (runBatch rs).total = rs.length := by
  have h := countLabels_partition rs
  constructor
  · rw [runBatch_true_pos, runBatch_false_pos, runBatch_true_neg,
      runBatch_false_neg]
    omega
  · exact runBatch_total rs

end VehicleCsvAnalyzer
